import Mathlib

/-!
Verification of the `RasterBand` class of `promis/geo/raster_band.py`.

The Python code is shallowly embedded: numpy arrays become a shape-carrying
structure over `ℚ`-valued entry functions, Python dictionaries become
association lists, and IEEE floats become exact rationals (the embedded
computations only use field operations, floor and comparisons, which the
rational model performs exactly).  The external collaborators declared out of
scope by the design (the geodetic conversion `CartesianLocation.to_polar` of
`promis.geo.map` and the Gaussian components of `promis.models`) are
universally quantified parameters: a conversion function `ToPolar` and a
component record exposing `weight` and `cdf`, exactly the interface the
raster code consumes.
-/

namespace ProMis

/-- Local metric location (meters). Mirrors the `east`/`north` fields of
`promis.geo.map.CartesianLocation`, the only part of that external class the
raster code reads. -/
structure CartesianLocation where
  east : ℚ
  north : ℚ
deriving DecidableEq

/-- Geodetic location. Mirrors the `latitude`/`longitude` fields of
`promis.geo.map.PolarLocation`. -/
structure PolarLocation where
  latitude : ℚ
  longitude : ℚ
deriving DecidableEq

/-- Type of the external conversion `CartesianLocation.to_polar`: first
argument the local-metric point, second the anchoring geodetic origin.  The
raster-band code treats it as opaque, so the development quantifies over it. -/
def ToPolar : Type := CartesianLocation → PolarLocation → PolarLocation

/-- Model of a 2D numpy array of floats: a shape `(shape0, shape1)` together
with the entry function; reads outside the shape are irrelevant to the
embedded code paths. -/
structure NdArray where
  shape0 : ℕ
  shape1 : ℕ
  val : ℕ → ℕ → ℚ

/-- numpy `zeros((w, h))`. -/
def zerosArr (w h : ℕ) : NdArray := ⟨w, h, fun _ _ => 0⟩

/-- numpy basic slicing `a[i0:i1, j0:j1]`. -/
def NdArray.slice (a : NdArray) (i0 i1 j0 j1 : ℕ) : NdArray :=
  ⟨i1 - i0, j1 - j0, fun i j => a.val (i + i0) (j + j0)⟩

/-- Python's `%` on reals with a positive modulus: `x - m * floor(x / m)`. -/
def pymod (x m : ℚ) : ℚ := x - m * ⌊x / m⌋

/-- Formula of `RasterBand.index_to_cartesian` from the source:
`east = pixel_width/2 + i*pixel_width - center_x`,
`north = -(pixel_height/2 + j*pixel_height) + center_y`. -/
def indexToCartesianF (pixel_width pixel_height center_x center_y : ℚ)
    (index : ℕ × ℕ) : CartesianLocation :=
  { east := pixel_width / 2 + (index.1 : ℚ) * pixel_width - center_x
    north := -(pixel_height / 2 + (index.2 : ℚ) * pixel_height) + center_y }

/-- The `RasterBand` entity: `data` grid, geodetic `origin` of the center,
physical `width`/`height` in meters, the derived pixel sizes and center
offsets, and the two location caches precomputed by `__init__` (Python
dictionaries, embedded as association lists keyed by the grid index). -/
structure RasterBand where
  data : NdArray
  origin : PolarLocation
  width : ℚ
  height : ℚ
  pixel_width : ℚ
  pixel_height : ℚ
  center_x : ℚ
  center_y : ℚ
  cartesian_locations : List ((ℕ × ℕ) × CartesianLocation)
  polar_locations : List ((ℕ × ℕ) × PolarLocation)

/-- Embedding of `RasterBand.__init__`: derives
`pixel_width = width / data.shape[0]`, `pixel_height = height / data.shape[1]`,
`center_x = width / 2`, `center_y = height / 2`, and precomputes the
Cartesian and polar location of every index of
`product(range(shape0), range(shape1))`. -/
def mkRasterBand (toPolar : ToPolar) (data : NdArray) (origin : PolarLocation)
    (width height : ℚ) : RasterBand :=
  let pixel_width := width / (data.shape0 : ℚ)
  let pixel_height := height / (data.shape1 : ℚ)
  let center_x := width / 2
  let center_y := height / 2
  let indices := List.product (List.range data.shape0) (List.range data.shape1)
  { data := data
    origin := origin
    width := width
    height := height
    pixel_width := pixel_width
    pixel_height := pixel_height
    center_x := center_x
    center_y := center_y
    cartesian_locations := indices.map fun index =>
      (index, indexToCartesianF pixel_width pixel_height center_x center_y index)
    polar_locations := indices.map fun index =>
      (index, toPolar (indexToCartesianF pixel_width pixel_height center_x center_y index) origin) }

/-- Embedding of `RasterBand.__init__` together with Python's failure
behavior: the only operation of the constructor that can raise is the
division by `data.shape[0]` and `data.shape[1]`, which raises
`ZeroDivisionError` exactly when a shape entry is zero.  No other validation
is performed by the source. -/
def mkRasterBandChecked (toPolar : ToPolar) (data : NdArray) (origin : PolarLocation)
    (width height : ℚ) : Except String RasterBand :=
  if data.shape0 = 0 ∨ data.shape1 = 0 then
    Except.error "ZeroDivisionError"
  else
    Except.ok (mkRasterBand toPolar data origin width height)

/-- Discriminator for `Except` results of the checked constructor. -/
def exceptIsOk : Except String RasterBand → Bool
  | Except.ok _ => true
  | Except.error _ => false

/-- Embedding of the method `RasterBand.index_to_cartesian`. -/
def RasterBand.index_to_cartesian (r : RasterBand) (index : ℕ × ℕ) : CartesianLocation :=
  indexToCartesianF r.pixel_width r.pixel_height r.center_x r.center_y index

/-- Embedding of the method `RasterBand.index_to_polar`:
`self.index_to_cartesian(index).to_polar(self.origin)`. -/
def RasterBand.index_to_polar (r : RasterBand) (toPolar : ToPolar) (index : ℕ × ℕ) :
    PolarLocation :=
  toPolar (r.index_to_cartesian index) r.origin

/-- Local `data_split_x = shape[0] // 2` of `RasterBand.split`. -/
def RasterBand.data_split_x (r : RasterBand) : ℕ := r.data.shape0 / 2

/-- Local `data_split_y = shape[1] // 2` of `RasterBand.split`. -/
def RasterBand.data_split_y (r : RasterBand) : ℕ := r.data.shape1 / 2

/-- Local `left_width` of `RasterBand.split` (branch on `width % 2 != 0`). -/
def RasterBand.left_width (r : RasterBand) : ℚ :=
  if pymod r.width 2 ≠ 0 then (r.width - r.pixel_width) / 2 else r.width / 2

/-- Local `right_width` of `RasterBand.split`. -/
def RasterBand.right_width (r : RasterBand) : ℚ :=
  if pymod r.width 2 ≠ 0 then (r.width + r.pixel_width) / 2 else r.width / 2

/-- Local `origin_west` of `RasterBand.split`. -/
def RasterBand.origin_west (r : RasterBand) : ℚ :=
  if pymod r.width 2 ≠ 0 then -((r.width + r.pixel_width) / 4) else -(r.width / 4)

/-- Local `origin_east` of `RasterBand.split`. -/
def RasterBand.origin_east (r : RasterBand) : ℚ :=
  if pymod r.width 2 ≠ 0 then (r.width - r.pixel_width) / 4 else r.width / 4

/-- Local `top_height` of `RasterBand.split` (branch on `height % 2 != 0`). -/
def RasterBand.top_height (r : RasterBand) : ℚ :=
  if pymod r.height 2 ≠ 0 then (r.height - r.pixel_height) / 2 else r.height / 2

/-- Local `bottom_height` of `RasterBand.split`. -/
def RasterBand.bottom_height (r : RasterBand) : ℚ :=
  if pymod r.height 2 ≠ 0 then (r.height + r.pixel_height) / 2 else r.height / 2

/-- Local `origin_north` of `RasterBand.split`. -/
def RasterBand.origin_north (r : RasterBand) : ℚ :=
  if pymod r.height 2 ≠ 0 then -((r.height - r.pixel_height) / 4) else -(r.height / 4)

/-- Local `origin_south` of `RasterBand.split`. -/
def RasterBand.origin_south (r : RasterBand) : ℚ :=
  if pymod r.height 2 ≠ 0 then (r.height + r.pixel_height) / 4 else r.height / 4

/-- First returned quadrant of `RasterBand.split`:
`RasterBand(data[:sx, :sy], CartesianLocation(origin_west, origin_south).to_polar(origin), left_width, top_height)`. -/
def RasterBand.quad00 (r : RasterBand) (toPolar : ToPolar) : RasterBand :=
  mkRasterBand toPolar (r.data.slice 0 r.data_split_x 0 r.data_split_y)
    (toPolar ⟨r.origin_west, r.origin_south⟩ r.origin) r.left_width r.top_height

/-- Second returned quadrant of `RasterBand.split`:
`RasterBand(data[:sx, sy:], CartesianLocation(origin_west, origin_north).to_polar(origin), left_width, bottom_height)`. -/
def RasterBand.quad01 (r : RasterBand) (toPolar : ToPolar) : RasterBand :=
  mkRasterBand toPolar (r.data.slice 0 r.data_split_x r.data_split_y r.data.shape1)
    (toPolar ⟨r.origin_west, r.origin_north⟩ r.origin) r.left_width r.bottom_height

/-- Third returned quadrant of `RasterBand.split`:
`RasterBand(data[sx:, :sy], CartesianLocation(origin_east, origin_south).to_polar(origin), right_width, top_height)`. -/
def RasterBand.quad10 (r : RasterBand) (toPolar : ToPolar) : RasterBand :=
  mkRasterBand toPolar (r.data.slice r.data_split_x r.data.shape0 0 r.data_split_y)
    (toPolar ⟨r.origin_east, r.origin_south⟩ r.origin) r.right_width r.top_height

/-- Fourth returned quadrant of `RasterBand.split`:
`RasterBand(data[sx:, sy:], CartesianLocation(origin_east, origin_north).to_polar(origin), right_width, bottom_height)`. -/
def RasterBand.quad11 (r : RasterBand) (toPolar : ToPolar) : RasterBand :=
  mkRasterBand toPolar (r.data.slice r.data_split_x r.data.shape0 r.data_split_y r.data.shape1)
    (toPolar ⟨r.origin_east, r.origin_north⟩ r.origin) r.right_width r.bottom_height

/-- Embedding of `RasterBand.split`: returns the band itself when a grid
dimension equals 1, otherwise the nested list of the four quadrants exactly
as listed in the source. -/
def RasterBand.split (r : RasterBand) (toPolar : ToPolar) :
    RasterBand ⊕ List (List RasterBand) :=
  if r.data.shape0 = 1 ∨ r.data.shape1 = 1 then
    Sum.inl r
  else
    Sum.inr [[r.quad00 toPolar, r.quad01 toPolar], [r.quad10 toPolar, r.quad11 toPolar]]

/-- Accessor for one quadrant of a `split` result. -/
def quadAt (s : RasterBand ⊕ List (List RasterBand)) (a b : ℕ) : Option RasterBand :=
  match s with
  | Sum.inl _ => none
  | Sum.inr l => (l.getD a [])[b]?

/-- Interface of one mixture component as consumed by
`RasterBand.from_gaussian_mixture`: a scalar `weight` and a joint `cdf`
evaluated at a 2D point.  The component itself is an external collaborator
(`promis.models`), so `cdf` is an arbitrary function. -/
structure Gaussian where
  weight : ℚ
  cdf : ℚ × ℚ → ℚ

/-- Lookup of the cell center in the `cartesian_locations` dictionary, as
`from_gaussian_mixture` does via `raster_band.cartesian_locations[index]`
(the default is never reached on the iterated indices). -/
def RasterBand.cellCenter (r : RasterBand) (index : ℕ × ℕ) : CartesianLocation :=
  (r.cartesian_locations.lookup index).getD ⟨0, 0⟩

/-- Corner `location + 0.5 * [pixel_width, pixel_height]` of a cell. -/
def RasterBand.top_right (r : RasterBand) (index : ℕ × ℕ) : ℚ × ℚ :=
  ((r.cellCenter index).east + r.pixel_width / 2, (r.cellCenter index).north + r.pixel_height / 2)

/-- Corner `location + 0.5 * [-pixel_width, pixel_height]` of a cell. -/
def RasterBand.top_left (r : RasterBand) (index : ℕ × ℕ) : ℚ × ℚ :=
  ((r.cellCenter index).east - r.pixel_width / 2, (r.cellCenter index).north + r.pixel_height / 2)

/-- Corner `location + 0.5 * [pixel_width, -pixel_height]` of a cell. -/
def RasterBand.bottom_right (r : RasterBand) (index : ℕ × ℕ) : ℚ × ℚ :=
  ((r.cellCenter index).east + r.pixel_width / 2, (r.cellCenter index).north - r.pixel_height / 2)

/-- Corner `location + 0.5 * [-pixel_width, -pixel_height]` of a cell. -/
def RasterBand.bottom_left (r : RasterBand) (index : ℕ × ℕ) : ℚ × ℚ :=
  ((r.cellCenter index).east - r.pixel_width / 2, (r.cellCenter index).north - r.pixel_height / 2)

/-- One conditional insertion into the per-component CDF cache:
`if corner not in cdf_raster: cdf_raster[corner] = gaussian.cdf(corner)`. -/
def cdfStep (g : Gaussian) (cache : List ((ℚ × ℚ) × ℚ)) (corner : ℚ × ℚ) :
    List ((ℚ × ℚ) × ℚ) :=
  if (cache.lookup corner).isSome then cache else (corner, g.cdf corner) :: cache

/-- The cache after the four conditional insertions performed for one cell,
in source order: top_right, top_left, bottom_right, bottom_left. -/
def stepCache (g : Gaussian) (r : RasterBand) (cache : List ((ℚ × ℚ) × ℚ))
    (index : ℕ × ℕ) : List ((ℚ × ℚ) × ℚ) :=
  cdfStep g (cdfStep g (cdfStep g (cdfStep g cache (r.top_right index))
    (r.top_left index)) (r.bottom_right index)) (r.bottom_left index)

/-- Processing of one cell by `from_gaussian_mixture`: update the CDF cache,
then record
`weight * (cdf_raster[top_right] - cdf_raster[top_left] - cdf_raster[bottom_right] + cdf_raster[bottom_left])`
for the cell. -/
def gaussianStep (g : Gaussian) (r : RasterBand)
    (state : List ((ℚ × ℚ) × ℚ) × List ((ℕ × ℕ) × ℚ)) (index : ℕ × ℕ) :
    List ((ℚ × ℚ) × ℚ) × List ((ℕ × ℕ) × ℚ) :=
  (stepCache g r state.1 index,
    (index, g.weight *
      (((stepCache g r state.1 index).lookup (r.top_right index)).getD 0
        - ((stepCache g r state.1 index).lookup (r.top_left index)).getD 0
        - ((stepCache g r state.1 index).lookup (r.bottom_right index)).getD 0
        + ((stepCache g r state.1 index).lookup (r.bottom_left index)).getD 0)) :: state.2)

/-- The per-cell probability raster `probabilities[i]` of one component,
produced by iterating `gaussianStep` over
`product(range(shape0), range(shape1))` starting from an empty cache. -/
def gaussianRaster (g : Gaussian) (r : RasterBand) : List ((ℕ × ℕ) × ℚ) :=
  ((List.product (List.range r.data.shape0) (List.range r.data.shape1)).foldl
    (gaussianStep g r) ([], [])).2

/-- Embedding of the classmethod `RasterBand.from_gaussian_mixture`: build an
empty band, compute one probability raster per component, and overwrite
`data` with the component-wise sum (numpy `sum(probabilities, axis=0)`). -/
def RasterBand.from_gaussian_mixture (toPolar : ToPolar) (mixture : List Gaussian)
    (origin : PolarLocation) (width height : ℚ) (resolution : ℕ × ℕ) : RasterBand :=
  let raster_band := mkRasterBand toPolar (zerosArr resolution.1 resolution.2) origin width height
  let probabilities := mixture.map fun g => gaussianRaster g raster_band
  { raster_band with
    data := ⟨resolution.1, resolution.2,
      fun i j => (probabilities.map fun p => (p.lookup (i, j)).getD 0).sum⟩ }

/-- Cache-free cell value of one component: the inclusion-exclusion mass the
source computes, with every cache access replaced by a direct CDF call. -/
def directCellValue (g : Gaussian) (r : RasterBand) (index : ℕ × ℕ) : ℚ :=
  g.weight * (g.cdf (r.top_right index) - g.cdf (r.top_left index)
    - g.cdf (r.bottom_right index) + g.cdf (r.bottom_left index))

/-- Statement-side definition following the words of the specification: the
per-cell mass is the sum over mixture components of
`weight * (CDF(top_right) - CDF(top_left) - CDF(bottom_right) + CDF(bottom_left))`
where the corners are the cell center plus/minus half a pixel in each axis. -/
def specCellMass (mixture : List Gaussian) (c : CartesianLocation) (pw ph : ℚ) : ℚ :=
  (mixture.map fun g =>
    g.weight * (g.cdf (c.east + pw / 2, c.north + ph / 2)
      - g.cdf (c.east - pw / 2, c.north + ph / 2)
      - g.cdf (c.east + pw / 2, c.north - ph / 2)
      + g.cdf (c.east - pw / 2, c.north - ph / 2))).sum

/-- Invariant of the per-component CDF cache: every stored value is the CDF
of its key. -/
def CacheInv (g : Gaussian) (cache : List ((ℚ × ℚ) × ℚ)) : Prop :=
  ∀ k v, cache.lookup k = some v → v = g.cdf k

/-- sklearn column minimum `X.min(axis=0)` of column `j` (grids have
`shape0 ≥ 1` wherever this is used). -/
def colMin (a : NdArray) (j : ℕ) : ℚ :=
  ((List.range a.shape0).map fun i => a.val i j).foldl min (a.val 0 j)

/-- sklearn column maximum `X.max(axis=0)` of column `j`. -/
def colMax (a : NdArray) (j : ℕ) : ℚ :=
  ((List.range a.shape0).map fun i => a.val i j).foldl max (a.val 0 j)

/-- sklearn `MinMaxScaler(feature_range=(0, 255)).fit_transform`: each column
(feature) is scaled independently by its own minimum and maximum; a zero
range is replaced by 1 (sklearn `_handle_zeros_in_scale`). -/
def minMaxScale255 (a : NdArray) : NdArray :=
  ⟨a.shape0, a.shape1, fun i j =>
    (a.val i j - colMin a j) /
      (if colMax a j - colMin a j = 0 then 1 else colMax a j - colMin a j) * 255⟩

/-- numpy cast of a float to `uint8`: truncation toward zero (all values cast
by `to_image` lie in `[0, 255]`, where this is exact). -/
def npUint8 (q : ℚ) : ℤ := if 0 ≤ q then ⌊q⌋ else -⌊-q⌋

/-- A single-channel 8-bit image as produced by `Image.fromarray`. -/
structure GrayImage where
  shape0 : ℕ
  shape1 : ℕ
  val : ℕ → ℕ → ℤ

/-- Embedding of `RasterBand.to_image`: min-max scale, transpose, cast to
`uint8`. -/
def RasterBand.to_image (r : RasterBand) : GrayImage :=
  ⟨r.data.shape1, r.data.shape0, fun j i => npUint8 ((minMaxScale255 r.data).val i j)⟩

/-- Whole-raster minimum over all cells. -/
def rasterMin (a : NdArray) : ℚ :=
  ((List.product (List.range a.shape0) (List.range a.shape1)).map
    fun p => a.val p.1 p.2).foldl min (a.val 0 0)

/-- Whole-raster maximum over all cells. -/
def rasterMax (a : NdArray) : ℚ :=
  ((List.product (List.range a.shape0) (List.range a.shape1)).map
    fun p => a.val p.1 p.2).foldl max (a.val 0 0)

/-- Statement-side definition following the words of the claim about image
export: min-max normalization with the minimum and maximum taken over the
entire raster, transposed, cast to `uint8`. -/
def specImageWholeRaster (a : NdArray) : GrayImage :=
  ⟨a.shape1, a.shape0, fun j i =>
    npUint8 ((a.val i j - rasterMin a) / (rasterMax a - rasterMin a) * 255)⟩

/-- Left pad with zeros to a given length. -/
def zeroPadLeft (s : String) (n : ℕ) : String :=
  String.mk (List.replicate (n - s.length) '0' ++ s.data)

/-- Python fixed-point formatting with 20 decimal places, as used by the
f-string conversion of the cell value in `save_as_csv` (exact for the
nonnegative dyadic values exercised here). -/
def format20 (q : ℚ) : String :=
  toString (⌊q * 10 ^ 20 + 1 / 2⌋ / 10 ^ 20) ++ "." ++
    zeroPadLeft (toString (⌊q * 10 ^ 20 + 1 / 2⌋ % 10 ^ 20)) 20

/-- Embedding of `RasterBand.save_as_csv` as the string written to the file:
optional header (only when not appending, with `, datetime` appended when a
timestamp is supplied), then per cell in `product(range(shape0), range(shape1))`
order the row `lat, lon, value` (value at 20 decimals), then `, time` plus a
newline when a timestamp is supplied, then one more unconditional newline.
The printing of latitude/longitude floats is an external parameter `fstr`. -/
def RasterBand.save_as_csv (toPolar : ToPolar) (fstr : ℚ → String) (r : RasterBand)
    (time : Option String) (append : Bool) : String :=
  (if append then "" else
    ("latitude, longitude, value" ++ (if time.isSome then ", datetime" else "")) ++ "\n")
    ++ String.join
      ((List.product (List.range r.data.shape0) (List.range r.data.shape1)).map fun xy =>
        fstr (r.index_to_polar toPolar xy).latitude ++ ", "
          ++ fstr (r.index_to_polar toPolar xy).longitude ++ ", "
          ++ format20 (r.data.val xy.1 xy.2)
          ++ (match time with
              | some t => ", " ++ t ++ "\n"
              | none => "")
          ++ "\n")

/-- Trivial geodetic conversion probe: every point maps to the anchor. -/
def anchorPolar : ToPolar := fun _ origin => origin

/-- Transparent geodetic conversion probe that records the local metric
offset in the two geodetic fields; it makes the offsets handed to the
external conversion observable in theorems. -/
def offsetPolar : ToPolar := fun c _ => ⟨c.east, c.north⟩

/-- Concrete geodetic origin used by concrete instances. -/
def pOrigin : PolarLocation := ⟨0, 0⟩

/-- Concrete 2x2 grid holding 0, 1, 2, 3: entry (i, j) is 2*i + j. -/
def arr22 : NdArray := ⟨2, 2, fun i j => 2 * (i : ℚ) + (j : ℚ)⟩

/-- Concrete 1x1 grid holding 0.5. -/
def arr11half : NdArray := ⟨1, 1, fun _ _ => 1 / 2⟩

/-- Concrete mixture component with weight 1 whose CDF is the product of the
coordinates. -/
def gProd : Gaussian := ⟨1, fun p => p.1 * p.2⟩

/-- Unfolding of `List.lookup` on a cons cell, phrased with propositional
equality of keys. -/
theorem lookup_cons {α β : Type} [BEq α] [LawfulBEq α] [DecidableEq α] (a : α) (b : β)
    (l : List (α × β)) (k : α) :
    ((a, b) :: l).lookup k = if k = a then some b else l.lookup k := by
  by_cases h : k = a
  · subst h
    simp [List.lookup]
  · have hb : (k == a) = false := beq_eq_false_iff_ne.mpr h
    simp [List.lookup, hb, h]

/-- Lookup in an association list pairing every key with `f` of the key. -/
theorem lookup_map_pair {α β : Type} [BEq α] [LawfulBEq α] [DecidableEq α] (f : α → β)
    (l : List α) (x : α) (hx : x ∈ l) :
    (l.map fun a => (a, f a)).lookup x = some (f x) := by
  induction l with
  | nil => cases hx
  | cons a t ih =>
    rw [List.map_cons, lookup_cons]
    by_cases h : x = a
    · simp [h]
    · simp only [h, if_false]
      exact ih ((List.mem_cons.mp hx).resolve_left h)

/-- Lookup succeeds with value `f k` in a list in which every pair's value is
`f` of its key and the key occurs. -/
theorem lookup_of_forall {α β : Type} [BEq α] [LawfulBEq α] [DecidableEq α] (f : α → β) :
    ∀ l : List (α × β), (∀ p ∈ l, p.2 = f p.1) → ∀ k : α, (∃ v, (k, v) ∈ l) →
      l.lookup k = some (f k) := by
  intro l
  induction l with
  | nil =>
    rintro _ k ⟨v, hv⟩
    cases hv
  | cons p t ih =>
    rintro hall k ⟨v, hv⟩
    obtain ⟨a, b⟩ := p
    rw [lookup_cons]
    by_cases h : k = a
    · subst h
      rw [if_pos rfl]
      exact congrArg some (hall (k, b) (List.mem_cons_self _ _))
    · rw [if_neg h]
      refine ih (fun q hq => hall q (List.mem_cons_of_mem _ hq)) k ⟨v, ?_⟩
      rcases List.mem_cons.mp hv with hv0 | hv1
      · exact absurd (congrArg Prod.fst hv0) h
      · exact hv1

/-- A cdf-cache insertion preserves every existing binding. -/
theorem cdfStep_lookup_mono (g : Gaussian) (cache : List ((ℚ × ℚ) × ℚ))
    (c k : ℚ × ℚ) (v : ℚ) (h : cache.lookup k = some v) :
    (cdfStep g cache c).lookup k = some v := by
  unfold cdfStep
  split
  · exact h
  · next hnone =>
    rw [lookup_cons]
    rcases eq_or_ne k c with rfl | hkc
    · rw [h] at hnone
      exact absurd rfl hnone
    · rw [if_neg hkc]
      exact h

/-- A cdf-cache insertion preserves the cache invariant. -/
theorem cdfStep_inv (g : Gaussian) (cache : List ((ℚ × ℚ) × ℚ)) (c : ℚ × ℚ)
    (h : CacheInv g cache) : CacheInv g (cdfStep g cache c) := by
  intro k v hv
  unfold cdfStep at hv
  split at hv
  · exact h k v hv
  · rw [lookup_cons] at hv
    rcases eq_or_ne k c with rfl | hkc
    · rw [if_pos rfl] at hv
      exact (Option.some_inj.mp hv).symm
    · rw [if_neg hkc] at hv
      exact h k v hv

/-- After a cdf-cache insertion the inserted corner is bound to its CDF. -/
theorem cdfStep_lookup_self (g : Gaussian) (cache : List ((ℚ × ℚ) × ℚ))
    (c : ℚ × ℚ) (h : CacheInv g cache) :
    (cdfStep g cache c).lookup c = some (g.cdf c) := by
  unfold cdfStep
  split
  · next hs =>
    obtain ⟨v, hv⟩ := Option.isSome_iff_exists.mp hs
    rw [hv, h c v hv]
  · rw [lookup_cons, if_pos rfl]

/-- The four-corner cache update preserves the cache invariant. -/
theorem stepCache_inv (g : Gaussian) (r : RasterBand) (cache : List ((ℚ × ℚ) × ℚ))
    (index : ℕ × ℕ) (h : CacheInv g cache) : CacheInv g (stepCache g r cache index) :=
  cdfStep_inv _ _ _ (cdfStep_inv _ _ _ (cdfStep_inv _ _ _ (cdfStep_inv _ _ _ h)))

/-- After the four-corner cache update, each of the four corners is bound to
its direct CDF value. -/
theorem stepCache_lookup_corners (g : Gaussian) (r : RasterBand)
    (cache : List ((ℚ × ℚ) × ℚ)) (index : ℕ × ℕ) (h : CacheInv g cache) :
    (stepCache g r cache index).lookup (r.top_right index) = some (g.cdf (r.top_right index))
      ∧ (stepCache g r cache index).lookup (r.top_left index) = some (g.cdf (r.top_left index))
      ∧ (stepCache g r cache index).lookup (r.bottom_right index)
          = some (g.cdf (r.bottom_right index))
      ∧ (stepCache g r cache index).lookup (r.bottom_left index)
          = some (g.cdf (r.bottom_left index)) := by
  have h1 := cdfStep_inv g cache (r.top_right index) h
  have h2 := cdfStep_inv g _ (r.top_left index) h1
  have h3 := cdfStep_inv g _ (r.bottom_right index) h2
  refine ⟨?_, ?_, ?_, ?_⟩
  · exact cdfStep_lookup_mono _ _ _ _ _ (cdfStep_lookup_mono _ _ _ _ _
      (cdfStep_lookup_mono _ _ _ _ _ (cdfStep_lookup_self _ _ _ h)))
  · exact cdfStep_lookup_mono _ _ _ _ _ (cdfStep_lookup_mono _ _ _ _ _
      (cdfStep_lookup_self _ _ _ h1))
  · exact cdfStep_lookup_mono _ _ _ _ _ (cdfStep_lookup_self _ _ _ h2)
  · exact cdfStep_lookup_self _ _ _ h3

/-- One `gaussianStep` records exactly the cache-free inclusion-exclusion
value for the processed cell and keeps the cache invariant. -/
theorem gaussianStep_spec (g : Gaussian) (r : RasterBand)
    (state : List ((ℚ × ℚ) × ℚ) × List ((ℕ × ℕ) × ℚ)) (index : ℕ × ℕ)
    (h : CacheInv g state.1) :
    gaussianStep g r state index
      = (stepCache g r state.1 index, (index, directCellValue g r index) :: state.2)
      ∧ CacheInv g (stepCache g r state.1 index) := by
  obtain ⟨htr, htl, hbr, hbl⟩ := stepCache_lookup_corners g r state.1 index h
  constructor
  · unfold gaussianStep directCellValue
    rw [htr, htl, hbr, hbl]
    rfl
  · exact stepCache_inv g r state.1 index h

/-- Elements already recorded survive the remaining iterations of the fold of
`gaussianStep` (each step only conses a new pair onto the value list). -/
theorem foldl_gaussianStep_mono (g : Gaussian) (r : RasterBand) :
    ∀ (todo : List (ℕ × ℕ)) (cache : List ((ℚ × ℚ) × ℚ))
      (vals : List ((ℕ × ℕ) × ℚ)) (p : (ℕ × ℕ) × ℚ), p ∈ vals →
      p ∈ (todo.foldl (gaussianStep g r) (cache, vals)).2 := by
  intro todo
  induction todo with
  | nil =>
    intro cache vals p hp
    exact hp
  | cons a t ih =>
    intro cache vals p hp
    rw [List.foldl_cons]
    exact ih _ _ p (List.mem_cons_of_mem _ hp)

/-- Invariant of the whole fold of `gaussianStep`: the cache stays CDF-exact,
every recorded pair holds the cache-free inclusion-exclusion value of its
cell, and every iterated cell gets recorded. -/
theorem foldl_gaussianStep_spec (g : Gaussian) (r : RasterBand) :
    ∀ (todo : List (ℕ × ℕ)) (cache : List ((ℚ × ℚ) × ℚ))
      (vals : List ((ℕ × ℕ) × ℚ)), CacheInv g cache →
      (∀ p ∈ vals, p.2 = directCellValue g r p.1) →
      CacheInv g (todo.foldl (gaussianStep g r) (cache, vals)).1
        ∧ (∀ p ∈ (todo.foldl (gaussianStep g r) (cache, vals)).2,
            p.2 = directCellValue g r p.1)
        ∧ ∀ index ∈ todo,
            ∃ v, (index, v) ∈ (todo.foldl (gaussianStep g r) (cache, vals)).2 := by
  intro todo
  induction todo with
  | nil =>
    intro cache vals hc hv
    refine ⟨hc, hv, ?_⟩
    intro index hindex
    cases hindex
  | cons a t ih =>
    intro cache vals hc hv
    obtain ⟨hstep, hcache⟩ := gaussianStep_spec g r (cache, vals) a hc
    rw [List.foldl_cons, hstep]
    have hv2 : ∀ p ∈ (a, directCellValue g r a) :: vals, p.2 = directCellValue g r p.1 := by
      intro p hp
      rcases List.mem_cons.mp hp with rfl | hp2
      · rfl
      · exact hv p hp2
    obtain ⟨ih1, ih2, ih3⟩ := ih (stepCache g r cache a) _ hcache hv2
    refine ⟨ih1, ih2, ?_⟩
    intro index hindex
    rcases List.mem_cons.mp hindex with rfl | hmem
    · exact ⟨directCellValue g r index,
        foldl_gaussianStep_mono g r t _ _ _ (List.mem_cons_self _ _)⟩
    · exact ih3 index hmem

/-- The probability raster of a component binds every in-range cell to the
cache-free inclusion-exclusion value: the caching changes no computed value. -/
theorem gaussianRaster_lookup (g : Gaussian) (r : RasterBand) (i j : ℕ)
    (hi : i < r.data.shape0) (hj : j < r.data.shape1) :
    (gaussianRaster g r).lookup (i, j) = some (directCellValue g r (i, j)) := by
  have hmem : (i, j) ∈ List.product (List.range r.data.shape0) (List.range r.data.shape1) :=
    List.pair_mem_product.mpr ⟨List.mem_range.mpr hi, List.mem_range.mpr hj⟩
  have hnil : CacheInv g ([] : List ((ℚ × ℚ) × ℚ)) := by
    intro k v hkv
    simp [List.lookup] at hkv
  obtain ⟨_, hall, hex⟩ := foldl_gaussianStep_spec g r
    (List.product (List.range r.data.shape0) (List.range r.data.shape1)) [] []
    hnil (by intro p hp; cases hp)
  exact lookup_of_forall (directCellValue g r) _ hall (i, j) (hex (i, j) hmem)

/-- The Cartesian cache of a constructed band binds every in-range index to
exactly what `index_to_cartesian` computes on demand. -/
theorem mk_cartesian_lookup (toPolar : ToPolar) (data : NdArray)
    (origin : PolarLocation) (width height : ℚ) (i j : ℕ)
    (hi : i < data.shape0) (hj : j < data.shape1) :
    (mkRasterBand toPolar data origin width height).cartesian_locations.lookup (i, j)
      = some ((mkRasterBand toPolar data origin width height).index_to_cartesian (i, j)) := by
  have hmem : (i, j) ∈ List.product (List.range data.shape0) (List.range data.shape1) :=
    List.pair_mem_product.mpr ⟨List.mem_range.mpr hi, List.mem_range.mpr hj⟩
  exact lookup_map_pair _ _ _ hmem

/-- The polar cache of a constructed band binds every in-range index to
exactly what `index_to_polar` computes on demand. -/
theorem mk_polar_lookup (toPolar : ToPolar) (data : NdArray)
    (origin : PolarLocation) (width height : ℚ) (i j : ℕ)
    (hi : i < data.shape0) (hj : j < data.shape1) :
    (mkRasterBand toPolar data origin width height).polar_locations.lookup (i, j)
      = some ((mkRasterBand toPolar data origin width height).index_to_polar toPolar (i, j)) := by
  have hmem : (i, j) ∈ List.product (List.range data.shape0) (List.range data.shape1) :=
    List.pair_mem_product.mpr ⟨List.mem_range.mpr hi, List.mem_range.mpr hj⟩
  exact lookup_map_pair _ _ _ hmem

/-- The cell center read from the cache by `from_gaussian_mixture` is the
on-demand `index_to_cartesian` value. -/
theorem mk_cellCenter (toPolar : ToPolar) (data : NdArray)
    (origin : PolarLocation) (width height : ℚ) (i j : ℕ)
    (hi : i < data.shape0) (hj : j < data.shape1) :
    (mkRasterBand toPolar data origin width height).cellCenter (i, j)
      = (mkRasterBand toPolar data origin width height).index_to_cartesian (i, j) := by
  rw [RasterBand.cellCenter, mk_cartesian_lookup toPolar data origin width height i j hi hj]
  rfl

/-- Pointwise equal functions have equal mapped sums. -/
theorem map_sum_congr {α : Type} (l : List α) (f g : α → ℚ)
    (h : ∀ a ∈ l, f a = g a) : (l.map f).sum = (l.map g).sum := by
  induction l with
  | nil => rfl
  | cons a t ih =>
    rw [List.map_cons, List.map_cons, List.sum_cons, List.sum_cons,
      h a (List.mem_cons_self _ _), ih fun b hb => h b (List.mem_cons_of_mem _ hb)]

/-- C1: for every Gaussian mixture, origin, positive width/height and
resolution (W, H), `from_gaussian_mixture` returns a RasterBand whose data
value at each in-range cell (i, j) is the sum over mixture components of
`weight * (CDF(top_right) - CDF(top_left) - CDF(bottom_right) + CDF(bottom_left))`,
the four corners being the cell's Cartesian center plus/minus half the pixel
width and half the pixel height; the per-component CDF caching changes no
computed value relative to evaluating the CDF directly at every corner. -/
theorem from_gaussian_mixture_cell_mass
    (toPolar : ToPolar) (mixture : List Gaussian) (origin : PolarLocation)
    (width height : ℚ) (W H i j : ℕ)
    (hw : 0 < width) (hh : 0 < height) (hi : i < W) (hj : j < H) :
    (RasterBand.from_gaussian_mixture toPolar mixture origin width height (W, H)).data.val i j
      = specCellMass mixture
          ((RasterBand.from_gaussian_mixture toPolar mixture origin width height
            (W, H)).index_to_cartesian (i, j))
          (RasterBand.from_gaussian_mixture toPolar mixture origin width height (W, H)).pixel_width
          (RasterBand.from_gaussian_mixture toPolar mixture origin width height (W, H)).pixel_height
      ∧ (RasterBand.from_gaussian_mixture toPolar mixture origin width height (W, H)).data.shape0 = W
      ∧ (RasterBand.from_gaussian_mixture toPolar mixture origin width height (W, H)).data.shape1 = H := by
  refine ⟨?_, rfl, rfl⟩
  show ((mixture.map fun g =>
      gaussianRaster g (mkRasterBand toPolar (zerosArr W H) origin width height)).map
        fun p => (p.lookup (i, j)).getD 0).sum = _
  rw [List.map_map]
  simp only [specCellMass]
  refine map_sum_congr mixture _ _ ?_
  intro g _
  show ((gaussianRaster g (mkRasterBand toPolar (zerosArr W H) origin width height)).lookup
      (i, j)).getD 0 = _
  rw [gaussianRaster_lookup g (mkRasterBand toPolar (zerosArr W H) origin width height) i j hi hj]
  show directCellValue g (mkRasterBand toPolar (zerosArr W H) origin width height) (i, j) = _
  unfold directCellValue RasterBand.top_right RasterBand.top_left
    RasterBand.bottom_right RasterBand.bottom_left
  rw [mk_cellCenter toPolar (zerosArr W H) origin width height i j hi hj]
  rfl

/-- C1 witness: a concrete one-component mixture on a 1x1 grid of physical
size 2x2; the cell value evaluates to 4 for the product CDF. -/
theorem from_gaussian_mixture_cell_mass_witness :
    (0 : ℚ) < 2 ∧ (0 : ℕ) < 1 ∧
      ((RasterBand.from_gaussian_mixture anchorPolar [gProd] pOrigin 2 2 (1, 1)).data.val 0 0
        = specCellMass [gProd]
            ((RasterBand.from_gaussian_mixture anchorPolar [gProd] pOrigin 2 2
              (1, 1)).index_to_cartesian (0, 0))
            (RasterBand.from_gaussian_mixture anchorPolar [gProd] pOrigin 2 2 (1, 1)).pixel_width
            (RasterBand.from_gaussian_mixture anchorPolar [gProd] pOrigin 2 2 (1, 1)).pixel_height)
      ∧ (RasterBand.from_gaussian_mixture anchorPolar [gProd] pOrigin 2 2 (1, 1)).data.val 0 0 = 4 := by
  have h := (from_gaussian_mixture_cell_mass anchorPolar [gProd] pOrigin 2 2 1 1 0 0
    (by norm_num) (by norm_num) (by norm_num) (by norm_num)).1
  refine ⟨by norm_num, by norm_num, h, ?_⟩
  rw [h]
  norm_num [specCellMass, gProd, RasterBand.from_gaussian_mixture, mkRasterBand,
    RasterBand.index_to_cartesian, indexToCartesianF, zerosArr]

/-- C10: `from_gaussian_mixture` applied to a mixture with zero components
returns a band whose data is the all-zero grid of shape (W, H): the sum of
the empty stack of probability rasters is zero everywhere. -/
theorem from_gaussian_mixture_empty_zero
    (toPolar : ToPolar) (origin : PolarLocation) (width height : ℚ) (W H : ℕ)
    (hw : 0 < width) (hh : 0 < height) (hW : 0 < W) (hH : 0 < H) :
    (RasterBand.from_gaussian_mixture toPolar [] origin width height (W, H)).data.shape0 = W
      ∧ (RasterBand.from_gaussian_mixture toPolar [] origin width height (W, H)).data.shape1 = H
      ∧ ∀ i j : ℕ,
          (RasterBand.from_gaussian_mixture toPolar [] origin width height (W, H)).data.val i j
            = 0 := by
  exact ⟨rfl, rfl, fun i j => rfl⟩

/-- C10 witness: the empty mixture on a concrete 2x3 grid of physical size
10x6 yields zero at a concrete cell. -/
theorem from_gaussian_mixture_empty_zero_witness :
    (0 : ℚ) < 10 ∧ (0 : ℕ) < 2 ∧
      (RasterBand.from_gaussian_mixture anchorPolar [] pOrigin 10 6 (2, 3)).data.shape0 = 2
      ∧ (RasterBand.from_gaussian_mixture anchorPolar [] pOrigin 10 6 (2, 3)).data.val 1 2 = 0 := by
  have h := from_gaussian_mixture_empty_zero anchorPolar pOrigin 10 6 2 3
    (by norm_num) (by norm_num) (by norm_num) (by norm_num)
  exact ⟨by norm_num, by norm_num, h.1, h.2.2 1 2⟩

/-- C2: for every constructed RasterBand and in-range index (i, j),
`index_to_cartesian` returns `east = (pixel_width/2 + i*pixel_width) - width/2`
and `north = height/2 - (pixel_height/2 + j*pixel_height)`; in particular a
2x2 grid with width = height = 10 has cell (0,0) centered at (-2.5, 2.5) and
cell (1,1) at (2.5, -2.5). -/
theorem index_to_cartesian_formula
    (toPolar : ToPolar) (data : NdArray) (origin : PolarLocation) (width height : ℚ)
    (i j : ℕ) (hi : i < data.shape0) (hj : j < data.shape1) :
    ((mkRasterBand toPolar data origin width height).index_to_cartesian (i, j)).east
        = ((mkRasterBand toPolar data origin width height).pixel_width / 2
            + (i : ℚ) * (mkRasterBand toPolar data origin width height).pixel_width) - width / 2
      ∧ ((mkRasterBand toPolar data origin width height).index_to_cartesian (i, j)).north
        = height / 2 - ((mkRasterBand toPolar data origin width height).pixel_height / 2
            + (j : ℚ) * (mkRasterBand toPolar data origin width height).pixel_height)
      ∧ (mkRasterBand anchorPolar (zerosArr 2 2) pOrigin 10 10).index_to_cartesian (0, 0)
          = ⟨-(5 / 2 : ℚ), 5 / 2⟩
      ∧ (mkRasterBand anchorPolar (zerosArr 2 2) pOrigin 10 10).index_to_cartesian (1, 1)
          = ⟨(5 / 2 : ℚ), -(5 / 2)⟩ := by
  refine ⟨?_, ?_, ?_, ?_⟩
  · simp only [mkRasterBand, RasterBand.index_to_cartesian, indexToCartesianF] <;> ring
  · simp only [mkRasterBand, RasterBand.index_to_cartesian, indexToCartesianF] <;> ring
  · norm_num [mkRasterBand, RasterBand.index_to_cartesian, indexToCartesianF, zerosArr,
      CartesianLocation.mk.injEq]
  · norm_num [mkRasterBand, RasterBand.index_to_cartesian, indexToCartesianF, zerosArr,
      CartesianLocation.mk.injEq]

/-- C2 witness: the formula instantiated at index (0, 1) of a concrete 2x2
band of physical size 10x10. -/
theorem index_to_cartesian_formula_witness :
    (0 : ℕ) < 2 ∧ (1 : ℕ) < 2 ∧
      ((mkRasterBand anchorPolar (zerosArr 2 2) pOrigin 10 10).index_to_cartesian (0, 1)).east
        = ((mkRasterBand anchorPolar (zerosArr 2 2) pOrigin 10 10).pixel_width / 2
            + (0 : ℚ) * (mkRasterBand anchorPolar (zerosArr 2 2) pOrigin 10 10).pixel_width)
          - 10 / 2 := by
  exact ⟨by norm_num, by norm_num,
    (index_to_cartesian_formula anchorPolar (zerosArr 2 2) pOrigin 10 10 0 1
      (by decide) (by decide)).1⟩

/-- C9: the precomputed location caches agree with the on-demand conversions
`index_to_cartesian`/`index_to_polar` at every in-range index, their key sets
are exactly `product(range(shape0), range(shape1))`, and
`from_gaussian_mixture` (the one operation that reassigns `data` after
construction) leaves both caches exactly as built at construction. -/
theorem location_caches_consistent
    (toPolar : ToPolar) (data : NdArray) (origin : PolarLocation) (width height : ℚ)
    (mixture : List Gaussian) (W H : ℕ) :
    (∀ i j : ℕ, i < data.shape0 → j < data.shape1 →
        (mkRasterBand toPolar data origin width height).cartesian_locations.lookup (i, j)
            = some ((mkRasterBand toPolar data origin width height).index_to_cartesian (i, j))
          ∧ (mkRasterBand toPolar data origin width height).polar_locations.lookup (i, j)
            = some ((mkRasterBand toPolar data origin width height).index_to_polar toPolar (i, j)))
      ∧ (mkRasterBand toPolar data origin width height).cartesian_locations.map Prod.fst
          = List.product (List.range data.shape0) (List.range data.shape1)
      ∧ (mkRasterBand toPolar data origin width height).polar_locations.map Prod.fst
          = List.product (List.range data.shape0) (List.range data.shape1)
      ∧ (RasterBand.from_gaussian_mixture toPolar mixture origin width height
          (W, H)).cartesian_locations
          = (mkRasterBand toPolar (zerosArr W H) origin width height).cartesian_locations
      ∧ (RasterBand.from_gaussian_mixture toPolar mixture origin width height
          (W, H)).polar_locations
          = (mkRasterBand toPolar (zerosArr W H) origin width height).polar_locations := by
  refine ⟨?_, ?_, ?_, rfl, rfl⟩
  · intro i j hi hj
    exact ⟨mk_cartesian_lookup toPolar data origin width height i j hi hj,
      mk_polar_lookup toPolar data origin width height i j hi hj⟩
  · simp only [mkRasterBand, List.map_map]
    exact List.map_id _
  · simp only [mkRasterBand, List.map_map]
    exact List.map_id _

/-- C9 witness: the cache agreement instantiated at index (0, 1) of a
concrete 2x2 band. -/
theorem location_caches_consistent_witness :
    (0 : ℕ) < 2 ∧ (1 : ℕ) < 2 ∧
      (mkRasterBand anchorPolar (zerosArr 2 2) pOrigin 10 10).cartesian_locations.lookup (0, 1)
        = some ((mkRasterBand anchorPolar (zerosArr 2 2) pOrigin 10 10).index_to_cartesian
            (0, 1)) := by
  exact ⟨by norm_num, by norm_num,
    ((location_caches_consistent anchorPolar (zerosArr 2 2) pOrigin 10 10 [] 1 1).1 0 1
      (by decide) (by decide)).1⟩

/-- Unfolding of `split` in the non-degenerate case: the nested list of the
four quadrants in source order. -/
theorem split_eq_inr (toPolar : ToPolar) (r : RasterBand)
    (h0 : r.data.shape0 ≠ 1) (h1 : r.data.shape1 ≠ 1) :
    r.split toPolar
      = Sum.inr [[r.quad00 toPolar, r.quad01 toPolar], [r.quad10 toPolar, r.quad11 toPolar]] := by
  simp [RasterBand.split, h0, h1]

/-- Four sub-rectangle cell counts recombine to the full grid. -/
theorem quarter_cells (m n a b : ℕ) (ha : a ≤ m) (hb : b ≤ n) :
    a * b + a * (n - b) + (m - a) * b + (m - a) * (n - b) = m * n := by
  have h1 : a * b + a * (n - b) = a * n := by
    rw [← Nat.mul_add, Nat.add_sub_cancel' hb]
  have h2 : (m - a) * b + (m - a) * (n - b) = (m - a) * n := by
    rw [← Nat.mul_add, Nat.add_sub_cancel' hb]
  rw [add_assoc, h1, h2, ← Nat.add_mul, Nat.add_sub_cancel' ha]

/-- The west and east quadrant widths of `split` sum to the parent width (in
both branches of the parity test). -/
theorem left_right_width_sum (r : RasterBand) : r.left_width + r.right_width = r.width := by
  unfold RasterBand.left_width RasterBand.right_width
  split_ifs <;> ring

/-- The two quadrant heights of `split` sum to the parent height (in both
branches of the parity test). -/
theorem top_bottom_height_sum (r : RasterBand) : r.top_height + r.bottom_height = r.height := by
  unfold RasterBand.top_height RasterBand.bottom_height
  split_ifs <;> ring

/-- C3: for every constructed RasterBand with even pixel counts W, H at least
2, `split` yields four quadrants tiling the parent: along each east-west row
the quadrant widths sum to the parent width, along each column the quadrant
heights sum to the parent height, and the four cell counts sum to W*H. -/
theorem split_conservation
    (toPolar : ToPolar) (data : NdArray) (origin : PolarLocation) (width height : ℚ)
    (heW : data.shape0 % 2 = 0) (heH : data.shape1 % 2 = 0)
    (hW : 2 ≤ data.shape0) (hH : 2 ≤ data.shape1) :
    ∃ q1 q2 q3 q4 : RasterBand,
      (mkRasterBand toPolar data origin width height).split toPolar
          = Sum.inr [[q1, q2], [q3, q4]]
        ∧ q1.width + q3.width = width ∧ q2.width + q4.width = width
        ∧ q1.height + q2.height = height ∧ q3.height + q4.height = height
        ∧ q1.data.shape0 * q1.data.shape1 + q2.data.shape0 * q2.data.shape1
            + q3.data.shape0 * q3.data.shape1 + q4.data.shape0 * q4.data.shape1
          = data.shape0 * data.shape1 := by
  refine ⟨(mkRasterBand toPolar data origin width height).quad00 toPolar,
    (mkRasterBand toPolar data origin width height).quad01 toPolar,
    (mkRasterBand toPolar data origin width height).quad10 toPolar,
    (mkRasterBand toPolar data origin width height).quad11 toPolar,
    split_eq_inr toPolar _ (by show data.shape0 ≠ 1; omega)
      (by show data.shape1 ≠ 1; omega), ?_, ?_, ?_, ?_, ?_⟩
  · exact left_right_width_sum (mkRasterBand toPolar data origin width height)
  · exact left_right_width_sum (mkRasterBand toPolar data origin width height)
  · exact top_bottom_height_sum (mkRasterBand toPolar data origin width height)
  · exact top_bottom_height_sum (mkRasterBand toPolar data origin width height)
  · show data.shape0 / 2 * (data.shape1 / 2)
        + data.shape0 / 2 * (data.shape1 - data.shape1 / 2)
        + (data.shape0 - data.shape0 / 2) * (data.shape1 / 2)
        + (data.shape0 - data.shape0 / 2) * (data.shape1 - data.shape1 / 2)
      = data.shape0 * data.shape1
    exact quarter_cells data.shape0 data.shape1 (data.shape0 / 2) (data.shape1 / 2)
      (Nat.div_le_self _ _) (Nat.div_le_self _ _)

/-- C3 witness: conservation instantiated on a concrete 2x2 band of physical
size 10x6. -/
theorem split_conservation_witness :
    (2 : ℕ) % 2 = 0 ∧ 2 ≤ (2 : ℕ) ∧
      ∃ q1 q2 q3 q4 : RasterBand,
        (mkRasterBand anchorPolar (zerosArr 2 2) pOrigin 10 6).split anchorPolar
            = Sum.inr [[q1, q2], [q3, q4]]
          ∧ q1.width + q3.width = 10 ∧ q2.width + q4.width = 10
          ∧ q1.height + q2.height = 6 ∧ q3.height + q4.height = 6
          ∧ q1.data.shape0 * q1.data.shape1 + q2.data.shape0 * q2.data.shape1
              + q3.data.shape0 * q3.data.shape1 + q4.data.shape0 * q4.data.shape1
            = (zerosArr 2 2).shape0 * (zerosArr 2 2).shape1 := by
  exact ⟨by norm_num, by norm_num,
    split_conservation anchorPolar (zerosArr 2 2) pOrigin 10 6
      (by decide) (by decide) (by decide) (by decide)⟩

/-- Arithmetic core of quadrant pixel sizes: when the parity branch taken on
the physical size agrees with the parity of the pixel count, both the small
and the large half keep the parent pixel size. -/
theorem half_pixel (w : ℚ) (n : ℕ) (hn : 2 ≤ n) (hpar : pymod w 2 = 0 ↔ n % 2 = 0) :
    (if pymod w 2 ≠ 0 then (w - w / (n : ℚ)) / 2 else w / 2) / ((n / 2 : ℕ) : ℚ)
        = w / (n : ℚ)
      ∧ (if pymod w 2 ≠ 0 then (w + w / (n : ℚ)) / 2 else w / 2) / ((n - n / 2 : ℕ) : ℚ)
        = w / (n : ℚ) := by
  rcases Nat.even_or_odd n with he | ho
  · have hm : pymod w 2 = 0 := hpar.mpr (Nat.even_iff.mp he)
    have hcond : ¬(pymod w 2 ≠ 0) := by simp [hm]
    rw [if_neg hcond, if_neg hcond]
    obtain ⟨k, hk⟩ := he
    have hk2 : n = 2 * k := by omega
    have hkpos : 0 < k := by omega
    have hd1 : n / 2 = k := by omega
    have hd2 : n - n / 2 = k := by omega
    have hcast : (n : ℚ) = 2 * (k : ℚ) := by
      rw [hk2]
      push_cast
      ring
    rw [hd2, hd1, hcast]
    have hk0 : (k : ℚ) ≠ 0 := Nat.cast_ne_zero.mpr (by omega)
    constructor <;> (field_simp; try ring)
  · have hcond : pymod w 2 ≠ 0 := by
      intro h
      have h1 := hpar.mp h
      have h2 : n % 2 = 1 := Nat.odd_iff.mp ho
      omega
    rw [if_pos hcond, if_pos hcond]
    obtain ⟨k, hk⟩ := ho
    have hkpos : 0 < k := by omega
    have hd1 : n / 2 = k := by omega
    have hd2 : n - n / 2 = k + 1 := by omega
    have hcast : (n : ℚ) = 2 * (k : ℚ) + 1 := by
      rw [hk]
      push_cast
      ring
    rw [hd2, hd1, hcast]
    have hk0 : (k : ℚ) ≠ 0 := Nat.cast_ne_zero.mpr (by omega)
    have hk1 : ((k : ℚ) + 1) ≠ 0 := by positivity
    have hk21 : (2 * (k : ℚ) + 1) ≠ 0 := by positivity
    constructor
    · push_cast
      field_simp
      ring
    · push_cast
      field_simp
      ring

/-- C4 (amended): when the parity of the physical width under Python float
`%` agrees with the parity of the pixel count W, and likewise for height and
H, every quadrant of `split` keeps the parent pixel sizes
`width / W` and `height / H`. -/
theorem split_pixel_size_parity
    (toPolar : ToPolar) (data : NdArray) (origin : PolarLocation) (width height : ℚ)
    (hW : 2 ≤ data.shape0) (hH : 2 ≤ data.shape1)
    (hpw : pymod width 2 = 0 ↔ data.shape0 % 2 = 0)
    (hph : pymod height 2 = 0 ↔ data.shape1 % 2 = 0) :
    ∃ q1 q2 q3 q4 : RasterBand,
      (mkRasterBand toPolar data origin width height).split toPolar
          = Sum.inr [[q1, q2], [q3, q4]]
        ∧ (∀ q ∈ [q1, q2, q3, q4],
            q.pixel_width = width / (data.shape0 : ℚ)
              ∧ q.pixel_height = height / (data.shape1 : ℚ)) := by
  refine ⟨(mkRasterBand toPolar data origin width height).quad00 toPolar,
    (mkRasterBand toPolar data origin width height).quad01 toPolar,
    (mkRasterBand toPolar data origin width height).quad10 toPolar,
    (mkRasterBand toPolar data origin width height).quad11 toPolar,
    split_eq_inr toPolar _ (by show data.shape0 ≠ 1; omega)
      (by show data.shape1 ≠ 1; omega), ?_⟩
  have hwidth := half_pixel width data.shape0 hW hpw
  have hheight := half_pixel height data.shape1 hH hph
  intro q hq
  simp only [List.mem_cons, List.mem_singleton, List.not_mem_nil, or_false] at hq
  rcases hq with rfl | rfl | rfl | rfl
  · exact ⟨hwidth.1, hheight.1⟩
  · exact ⟨hwidth.1, hheight.2⟩
  · exact ⟨hwidth.2, hheight.1⟩
  · exact ⟨hwidth.2, hheight.2⟩

/-- C4 counterexample: a 2x2 grid with physical size 7x7 takes the odd
branch of `split` (7 % 2 = 1) although W = H = 2 is even, so the first
quadrant (one pixel wide) gets pixel_width 7/4 whereas the parent pixel
width is 7/2: the split does not preserve pixel sizes for every band. -/
theorem split_pixel_size_counterexample :
    (quadAt ((mkRasterBand anchorPolar (zerosArr 2 2) pOrigin 7 7).split anchorPolar) 0 0).map
        RasterBand.pixel_width = some (7 / 4)
      ∧ (mkRasterBand anchorPolar (zerosArr 2 2) pOrigin 7 7).pixel_width = 7 / 2
      ∧ (7 : ℚ) / 4 ≠ 7 / 2 := by
  have h := split_eq_inr anchorPolar (mkRasterBand anchorPolar (zerosArr 2 2) pOrigin 7 7)
    (by decide) (by decide)
  refine ⟨?_, by norm_num [mkRasterBand, zerosArr], by norm_num⟩
  rw [h]
  show some ((mkRasterBand anchorPolar (zerosArr 2 2) pOrigin 7 7).quad00
    anchorPolar).pixel_width = some (7 / 4)
  norm_num [RasterBand.quad00, mkRasterBand, zerosArr, NdArray.slice,
    RasterBand.data_split_x, RasterBand.data_split_y, RasterBand.left_width,
    RasterBand.top_height, pymod]

/-- C4 witness: the amended parity condition holds for a 3x3 grid of
physical size 9x9 (both parities odd), and all four quadrants keep the
parent pixel sizes 9/3. -/
theorem split_pixel_size_parity_witness :
    (pymod 9 2 = 0 ↔ (3 : ℕ) % 2 = 0) ∧
      ∃ q1 q2 q3 q4 : RasterBand,
        (mkRasterBand anchorPolar (zerosArr 3 3) pOrigin 9 9).split anchorPolar
            = Sum.inr [[q1, q2], [q3, q4]]
          ∧ (∀ q ∈ [q1, q2, q3, q4],
              q.pixel_width = 9 / ((zerosArr 3 3).shape0 : ℚ)
                ∧ q.pixel_height = 9 / ((zerosArr 3 3).shape1 : ℚ)) := by
  constructor
  · constructor
    · intro hp
      exfalso
      rw [pymod] at hp
      norm_num at hp
    · intro hp
      norm_num at hp
  · exact split_pixel_size_parity anchorPolar (zerosArr 3 3) pOrigin 9 9
      (by decide) (by decide)
      (by constructor
          · intro hp
            exfalso
            rw [pymod] at hp
            norm_num at hp
          · intro hp
            norm_num [zerosArr] at hp)
      (by constructor
          · intro hp
            exfalso
            rw [pymod] at hp
            norm_num at hp
          · intro hp
            norm_num [zerosArr] at hp)

/-- C5 (amended): `split` on a band with one-pixel width or height returns
the band unchanged; otherwise it returns `[[q1, q2], [q3, q4]]` grouped west
then east, and within each sublist the FIRST element is the NORTHERN quadrant
(its origin offset handed to the geodetic conversion has positive north
component) and the second the southern one: the west/east offsets are the
source locals origin_west/origin_east (negative/positive) and the north
offsets of the first and second elements are the source locals
origin_south/origin_north, which are respectively positive and negative. -/
theorem split_structure (toPolar : ToPolar) :
    (∀ r : RasterBand, (r.data.shape0 = 1 ∨ r.data.shape1 = 1) →
        r.split toPolar = Sum.inl r)
      ∧ ∀ (data : NdArray) (origin : PolarLocation) (width height : ℚ),
          2 ≤ data.shape0 → 2 ≤ data.shape1 → 0 < width → 0 < height →
          ∃ q1 q2 q3 q4 : RasterBand,
            (mkRasterBand toPolar data origin width height).split toPolar
                = Sum.inr [[q1, q2], [q3, q4]]
              ∧ q1.origin = toPolar
                  ⟨(mkRasterBand toPolar data origin width height).origin_west,
                    (mkRasterBand toPolar data origin width height).origin_south⟩ origin
              ∧ q2.origin = toPolar
                  ⟨(mkRasterBand toPolar data origin width height).origin_west,
                    (mkRasterBand toPolar data origin width height).origin_north⟩ origin
              ∧ q3.origin = toPolar
                  ⟨(mkRasterBand toPolar data origin width height).origin_east,
                    (mkRasterBand toPolar data origin width height).origin_south⟩ origin
              ∧ q4.origin = toPolar
                  ⟨(mkRasterBand toPolar data origin width height).origin_east,
                    (mkRasterBand toPolar data origin width height).origin_north⟩ origin
              ∧ (mkRasterBand toPolar data origin width height).origin_west < 0
              ∧ 0 < (mkRasterBand toPolar data origin width height).origin_east
              ∧ (mkRasterBand toPolar data origin width height).origin_north < 0
              ∧ 0 < (mkRasterBand toPolar data origin width height).origin_south := by
  constructor
  · intro r h
    rw [RasterBand.split, if_pos h]
  · intro data origin width height hW hH hw hh
    have hn1 : (1 : ℚ) < (data.shape0 : ℚ) := by
      exact_mod_cast (by omega : (1 : ℕ) < data.shape0)
    have hn0 : (0 : ℚ) < (data.shape0 : ℚ) := lt_trans zero_lt_one hn1
    have hm1 : (1 : ℚ) < (data.shape1 : ℚ) := by
      exact_mod_cast (by omega : (1 : ℕ) < data.shape1)
    have hm0 : (0 : ℚ) < (data.shape1 : ℚ) := lt_trans zero_lt_one hm1
    have hpw : (0 : ℚ) < width / (data.shape0 : ℚ) := div_pos hw hn0
    have hpwlt : width / (data.shape0 : ℚ) < width := div_lt_self hw hn1
    have hph : (0 : ℚ) < height / (data.shape1 : ℚ) := div_pos hh hm0
    have hphlt : height / (data.shape1 : ℚ) < height := div_lt_self hh hm1
    have ew : (mkRasterBand toPolar data origin width height).width = width := rfl
    have eh : (mkRasterBand toPolar data origin width height).height = height := rfl
    have epw : (mkRasterBand toPolar data origin width height).pixel_width
        = width / (data.shape0 : ℚ) := rfl
    have eph : (mkRasterBand toPolar data origin width height).pixel_height
        = height / (data.shape1 : ℚ) := rfl
    refine ⟨(mkRasterBand toPolar data origin width height).quad00 toPolar,
      (mkRasterBand toPolar data origin width height).quad01 toPolar,
      (mkRasterBand toPolar data origin width height).quad10 toPolar,
      (mkRasterBand toPolar data origin width height).quad11 toPolar,
      split_eq_inr toPolar _ (by show data.shape0 ≠ 1; omega)
        (by show data.shape1 ≠ 1; omega),
      rfl, rfl, rfl, rfl, ?_, ?_, ?_, ?_⟩
    · unfold RasterBand.origin_west
      rw [ew, epw]
      split_ifs
      · linarith
      · linarith
    · unfold RasterBand.origin_east
      rw [ew, epw]
      split_ifs
      · linarith
      · linarith
    · unfold RasterBand.origin_north
      rw [eh, eph]
      split_ifs
      · linarith
      · linarith
    · unfold RasterBand.origin_south
      rw [eh, eph]
      split_ifs
      · linarith
      · linarith

/-- C5 counterexample: on a 2x2 band of size 10x10, the offset handed to the
geodetic conversion for the FIRST element of the first sublist is
(-5/2, +5/2): its north component is +5/2, which is not negative, so the
first element is the north-west (not the south-west) quadrant. -/
theorem split_order_counterexample :
    (quadAt ((mkRasterBand offsetPolar (zerosArr 2 2) pOrigin 10 10).split offsetPolar) 0 0).map
        RasterBand.origin = some ⟨-(5 / 2), 5 / 2⟩
      ∧ ¬((5 : ℚ) / 2 < 0) := by
  have h := split_eq_inr offsetPolar (mkRasterBand offsetPolar (zerosArr 2 2) pOrigin 10 10)
    (by decide) (by decide)
  refine ⟨?_, by norm_num⟩
  rw [h]
  show some ((mkRasterBand offsetPolar (zerosArr 2 2) pOrigin 10 10).quad00
    offsetPolar).origin = some ⟨-(5 / 2), 5 / 2⟩
  norm_num [RasterBand.quad00, mkRasterBand, zerosArr, offsetPolar, pymod,
    RasterBand.origin_west, RasterBand.origin_south, PolarLocation.mk.injEq]

/-- C5 witness: the base case on a concrete 1x3 band, and the quadrant
structure with offset signs on a concrete 2x2 band of size 10x10. -/
theorem split_structure_witness :
    (mkRasterBand anchorPolar (zerosArr 1 3) pOrigin 4 4).split anchorPolar
        = Sum.inl (mkRasterBand anchorPolar (zerosArr 1 3) pOrigin 4 4)
      ∧ ∃ q1 q2 q3 q4 : RasterBand,
          (mkRasterBand anchorPolar (zerosArr 2 2) pOrigin 10 10).split anchorPolar
              = Sum.inr [[q1, q2], [q3, q4]]
            ∧ (mkRasterBand anchorPolar (zerosArr 2 2) pOrigin 10 10).origin_west < 0
            ∧ 0 < (mkRasterBand anchorPolar (zerosArr 2 2) pOrigin 10 10).origin_south := by
  constructor
  · exact (split_structure anchorPolar).1 _ (Or.inl rfl)
  · obtain ⟨q1, q2, q3, q4, hsplit, _, _, _, _, hwest, _, _, hsouth⟩ :=
      (split_structure anchorPolar).2 (zerosArr 2 2) pOrigin 10 10
        (by decide) (by decide) (by norm_num) (by norm_num)
    exact ⟨q1, q2, q3, q4, hsplit, hwest, hsouth⟩

/-- C7 (amended): construction fails (Python ZeroDivisionError from the
pixel-size divisions) exactly when a dimension of the data grid is zero;
non-positive width or height raises nothing and is accepted silently. -/
theorem init_error_iff (toPolar : ToPolar) (data : NdArray) (origin : PolarLocation)
    (width height : ℚ) :
    exceptIsOk (mkRasterBandChecked toPolar data origin width height) = false
      ↔ (data.shape0 = 0 ∨ data.shape1 = 0) := by
  unfold mkRasterBandChecked
  split_ifs with h
  · simp [exceptIsOk, h]
  · simp [exceptIsOk, h]

/-- C7 counterexample: constructing with the non-positive width -3 on a 1x1
grid raises no error and silently produces the degenerate pixel_width -3. -/
theorem init_nonpositive_width_ok :
    exceptIsOk (mkRasterBandChecked anchorPolar (zerosArr 1 1) pOrigin (-3) 10) = true
      ∧ (mkRasterBand anchorPolar (zerosArr 1 1) pOrigin (-3) 10).pixel_width = -3
      ∧ (-3 : ℚ) ≤ 0 := by
  refine ⟨rfl, ?_, by norm_num⟩
  norm_num [mkRasterBand, zerosArr]

/-- C8 (amended): `to_image` normalizes per COLUMN of `data` (per sklearn
feature), not over the entire raster: the image pixel at (j, i) is the cell
value min-max-scaled by the minimum and maximum of column j alone, so cells
holding a column minimum map to 0 and cells holding a column maximum map to
255 (for a column with nonzero range), and the array is transposed. -/
theorem to_image_per_column
    (toPolar : ToPolar) (data : NdArray) (origin : PolarLocation) (width height : ℚ)
    (i j : ℕ) (hi : i < data.shape0) (hj : j < data.shape1)
    (hcol : colMax data j - colMin data j ≠ 0) :
    ((mkRasterBand toPolar data origin width height).to_image).val j i
        = npUint8 ((data.val i j - colMin data j) / (colMax data j - colMin data j) * 255)
      ∧ (data.val i j = colMin data j →
          ((mkRasterBand toPolar data origin width height).to_image).val j i = 0)
      ∧ (data.val i j = colMax data j →
          ((mkRasterBand toPolar data origin width height).to_image).val j i = 255) := by
  have hval : ((mkRasterBand toPolar data origin width height).to_image).val j i
      = npUint8 ((data.val i j - colMin data j) /
          (if colMax data j - colMin data j = 0 then 1
            else colMax data j - colMin data j) * 255) := rfl
  rw [hval, if_neg hcol]
  refine ⟨rfl, ?_, ?_⟩
  · intro hmin
    rw [hmin, sub_self, zero_div, zero_mul]
    norm_num [npUint8]
  · intro hmax
    rw [hmax, div_self hcol, one_mul]
    norm_num [npUint8]

/-- C8 counterexample: for the grid holding 0,1,2,3, the cell (0, 1) holds
the value 1, which is the minimum of its own column but not of the raster;
the code maps it to 0 while whole-raster normalization (the claim) gives
floor(1/3*255) = 85. -/
theorem to_image_per_raster_counterexample :
    (mkRasterBand anchorPolar arr22 pOrigin 2 2).to_image.val 1 0 = 0
      ∧ (specImageWholeRaster arr22).val 1 0 = 85
      ∧ (0 : ℤ) ≠ 85 := by
  refine ⟨?_, ?_, by norm_num⟩
  · norm_num [RasterBand.to_image, mkRasterBand, minMaxScale255, colMin, colMax, arr22,
      List.range_succ, min_def, max_def, npUint8]
  · norm_num [specImageWholeRaster, rasterMin, rasterMax, arr22, List.range_succ,
      List.product, min_def, max_def, npUint8]

/-- C8 witness: the per-column formula instantiated at cell (0, 0) of the
concrete grid holding 0,1,2,3. -/
theorem to_image_per_column_witness :
    colMax arr22 0 - colMin arr22 0 ≠ 0 ∧
      ((mkRasterBand anchorPolar arr22 pOrigin 2 2).to_image).val 0 0
        = npUint8 ((arr22.val 0 0 - colMin arr22 0) / (colMax arr22 0 - colMin arr22 0) * 255) := by
  have hcol : colMax arr22 0 - colMin arr22 0 ≠ 0 := by
    norm_num [colMin, colMax, arr22, List.range_succ, min_def, max_def]
  exact ⟨hcol,
    (to_image_per_column anchorPolar arr22 pOrigin 2 2 0 0 (by decide) (by decide) hcol).1⟩

/-- Evaluation of the 20-decimal formatting at the value 0.5. -/
theorem format20_half : format20 (1 / 2) = "0.50000000000000000000" := by
  unfold format20
  have h1 : ⌊(1 / 2 : ℚ) * 10 ^ 20 + 1 / 2⌋ = (50000000000000000000 : ℤ) := by norm_num
  rw [h1]
  rfl

/-- C6: on the 1x1 band holding 0.5 with a timestamp and append not set, the
written file is the header line, the data row (ending in the timestamp and a
newline), and then ONE MORE newline: the unconditional trailing write adds a
blank line after the row already terminated by the timestamp write, so the
file contains three newline-terminated lines, not two. -/
theorem save_as_csv_blank_line :
    RasterBand.save_as_csv anchorPolar (fun _ => "0")
        (mkRasterBand anchorPolar arr11half pOrigin 1 1) (some "2024-01-01T00:00Z") false
      = "latitude, longitude, value, datetime\n0, 0, 0.50000000000000000000, 2024-01-01T00:00Z\n\n"
      ∧ (RasterBand.save_as_csv anchorPolar (fun _ => "0")
          (mkRasterBand anchorPolar arr11half pOrigin 1 1) (some "2024-01-01T00:00Z")
          false).data.count (Char.ofNat 10) = 3 := by
  have hexpand : RasterBand.save_as_csv anchorPolar (fun _ => "0")
      (mkRasterBand anchorPolar arr11half pOrigin 1 1) (some "2024-01-01T00:00Z") false
      = "latitude, longitude, value, datetime\n"
        ++ ("0" ++ ", " ++ "0" ++ ", " ++ format20 (1 / 2)
          ++ (", " ++ "2024-01-01T00:00Z" ++ "\n") ++ "\n") := rfl
  rw [hexpand, format20_half]
  exact ⟨rfl, by decide⟩

end ProMis
